import Mathlib

/-!
Verification development for the array-binary-data layer of the ASDF
container format (`asdf/tags/core/ndarray.py`).  The Python module is
shallowly embedded: each Python function that the properties mention is
translated into an executable Lean definition, machine values are `Nat`/`Int`,
and every fallible code path returns `Except String`.
-/

deriving instance DecidableEq for Except

namespace Asdf

/-! ## Byte orders

`sys.byteorder` is one of the strings "big" / "little"; we model the host
byte order as a parameter `sysBo` of this type. -/

inductive Bo where
  | big
  | little
deriving DecidableEq, Repr

def Bo.str : Bo → String
  | .big => "big"
  | .little => "little"

/-- The numpy byte-order characters that can be requested when building a
dtype: `>` (gt) and `<` (lt). -/
inductive BoChar where
  | lt
  | gt
deriving DecidableEq, Repr

def Bo.char : Bo → BoChar
  | .big => .gt
  | .little => .lt

/-- The canonical byte-order stored on a constructed numpy dtype:
`=` (native), `>` (big), `<` (little), `|` (not applicable).  numpy
canonicalizes a requested order that matches the host order to `=`, and the
order of single-byte and byte-string kinds to `|`. -/
inductive NpBo where
  | native
  | big
  | little
  | na
deriving DecidableEq, Repr

/-! ## numpy scalar kinds -/

inductive NpBase where
  | int8 | int16 | int32 | int64
  | uint8 | uint16 | uint32 | uint64
  | float32 | float64
  | complex64 | complex128
  | bool8
  | bytesS (n : Nat)
  | ucs4 (n : Nat)
deriving DecidableEq, Repr

def NpBase.itemsize : NpBase → Nat
  | .int8 => 1
  | .int16 => 2
  | .int32 => 4
  | .int64 => 8
  | .uint8 => 1
  | .uint16 => 2
  | .uint32 => 4
  | .uint64 => 8
  | .float32 => 4
  | .float64 => 8
  | .complex64 => 8
  | .complex128 => 16
  | .bool8 => 1
  | .bytesS n => n
  | .ucs4 n => 4 * n

/-- Byte order is not applicable (`|`) for single-byte kinds and for numpy
byte strings (kind `S`) of any length. -/
def NpBase.boIrrelevant : NpBase → Bool
  | .int8 => true
  | .uint8 => true
  | .bool8 => true
  | .bytesS _ => true
  | _ => false

/-- Models the canonicalization performed by the `np.dtype` constructor on
the byte-order character of a scalar dtype. -/
def mkNpBo (sysBo : Bo) (c : BoChar) (base : NpBase) : NpBo :=
  if base.boIrrelevant then .na
  else if c = sysBo.char then .native
  else match c with
    | .lt => .little
    | .gt => .big

/-! ## numpy dtypes

A numpy dtype as the codec sees it: a (canonicalized) scalar, or a
structured record of named fields, each field possibly carrying a
sub-array shape (`dtype.fields[name][0].shape`). -/

mutual
inductive NpDtype where
  | scalar (bo : NpBo) (base : NpBase)
  | record (fields : NpFields)
deriving DecidableEq, Repr
inductive NpFields where
  | nil
  | cons (name : String) (ty : NpDtype) (shape : Option (List Nat)) (rest : NpFields)
deriving DecidableEq, Repr
end

mutual
def NpDtype.itemsize : NpDtype → Nat
  | .scalar _ b => b.itemsize
  | .record fs => fs.itemsizeSum
def NpFields.itemsizeSum : NpFields → Nat
  | .nil => 0
  | .cons _ t sh rest =>
      t.itemsize * (match sh with | none => 1 | some l => l.prod) + rest.itemsizeSum
end

def NpFields.names : NpFields → List String
  | .nil => []
  | .cons n _ _ rest => n :: rest.names

/-! ## ASDF datatype descriptor values

The descriptor grammar handled by `asdf_datatype_to_numpy_dtype`: a scalar
name string, an integer, a list (either the two-element
`[charset, length]` form or a record field list), or a field mapping with
keys `name` / `byteorder` / `shape` / `datatype`.  A mapping lacking the
`datatype` key is its own constructor. -/

mutual
inductive DNode where
  | s (v : String)
  | i (v : Int)
  | l (xs : DList)
  | fld (name : Option String) (byteorder : Option String)
        (shape : Option (List Nat)) (datatype : DNode)
  | fldNoDatatype (name : Option String) (byteorder : Option String)
        (shape : Option (List Nat))
deriving DecidableEq, Repr
inductive DList where
  | nil
  | cons (x : DNode) (xs : DList)
deriving DecidableEq, Repr
end

def dlistOf : List DNode → DList
  | [] => .nil
  | x :: xs => .cons x (dlistOf xs)

/-- Mirrors `_datatype_names` (the scalar-name table). -/
def scalarCodeOf : String → Option NpBase
  | "int8" => some .int8
  | "int16" => some .int16
  | "int32" => some .int32
  | "int64" => some .int64
  | "uint8" => some .uint8
  | "uint16" => some .uint16
  | "uint32" => some .uint32
  | "uint64" => some .uint64
  | "float32" => some .float32
  | "float64" => some .float64
  | "complex64" => some .complex64
  | "complex128" => some .complex128
  | "bool8" => some .bool8
  | _ => none

/-- Mirrors `_string_datatype_names` ("ascii" ↦ S, "ucs4" ↦ U). -/
def stringKindOf : String → Option (Nat → NpBase)
  | "ascii" => some .bytesS
  | "ucs4" => some .ucs4
  | _ => none

/-- Mirrors `asdf_byteorder_to_numpy_byteorder`. -/
def asdf_byteorder_to_numpy_byteorder : String → Except String BoChar
  | "big" => .ok .gt
  | "little" => .ok .lt
  | _ => .error "Invalid ASDF byteorder"

/-- The two possible outcomes of `asdf_datatype_to_numpy_dtype`: a numpy
dtype, or a field tuple `(name, dtype[, shape])` (produced for mapping
inputs, consumed by the enclosing record). -/
inductive DecRes where
  | dt (t : NpDtype)
  | fldT (name : String) (t : NpDtype) (shape : Option (List Nat))
deriving DecidableEq, Repr

/-- Detects the two-element `[charset, length]` string-datatype form. -/
def strFormOf : DList → Option ((Nat → NpBase) × Int)
  | .cons (.s c) (.cons (.i n) .nil) =>
      match stringKindOf c with
      | some k => some (k, n)
      | none => none
  | _ => none

abbrev Field3 := String × NpDtype × Option (List Nat)

/-- numpy renames empty field names positionally to `f0`, `f1`, ... -/
def autoname : Nat → List Field3 → List Field3
  | _, [] => []
  | i, f :: rest =>
      (if f.1 = "" then "f" ++ toString i else f.1, f.2.1, f.2.2) :: autoname (i + 1) rest

/-- numpy collapses an empty sub-array shape to a plain field. -/
def collapseShape : Option (List Nat) → Option (List Nat)
  | some [] => none
  | o => o

def fieldsOfList : List Field3 → NpFields
  | [] => .nil
  | f :: rest => .cons f.1 f.2.1 f.2.2 (fieldsOfList rest)

def fieldsToList : NpFields → List Field3
  | .nil => []
  | .cons n t sh rest => (n, t, sh) :: fieldsToList rest

/-- Models the `np.dtype(datatype_list)` constructor call on a list of field
tuples: positional renaming of empty names, collapsing empty shapes, and
rejection of duplicate field names. -/
def npDtypeOfFields (l : List Field3) : Except String DecRes :=
  let l2 := (autoname 0 l).map (fun f => (f.1, f.2.1, collapseShape f.2.2))
  if (l2.map (fun f => f.1)).Nodup then .ok (.dt (.record (fieldsOfList l2)))
  else .error "field names are not unique"

/-! ## asdf_datatype_to_numpy_dtype (decode) -/

mutual
/-- Mirrors the body of `asdf_datatype_to_numpy_dtype` once the byteorder
default has been filled in (the Python branches, in source order:
scalar-name string, `[charset, length]` list, field mapping, record list,
unknown). -/
def decodeAux (sysBo : Bo) : DNode → String → Except String DecRes
  | .s v, bo =>
      match scalarCodeOf v with
      | some base =>
          match asdf_byteorder_to_numpy_byteorder bo with
          | .error e => .error e
          | .ok c => .ok (.dt (.scalar (mkNpBo sysBo c base) base))
      | none => .error "Unknown datatype"
  | .i _, _ => .error "Unknown datatype"
  | .l xs, bo =>
      match strFormOf xs with
      | some (k, n) =>
          match asdf_byteorder_to_numpy_byteorder bo with
          | .error e => .error e
          | .ok c =>
              if n < 0 then .error "invalid string datatype length"
              else .ok (.dt (.scalar (mkNpBo sysBo c (k n.toNat)) (k n.toNat)))
      | none =>
          match decodeListAux sysBo xs bo with
          | .error e => .error e
          | .ok fields => npDtypeOfFields fields
  | .fld name boK sh dt, bo =>
      match decodeAux sysBo dt (boK.getD bo) with
      | .error e => .error e
      | .ok (.dt t) => .ok (.fldT (name.getD "") t sh)
      | .ok (.fldT _ _ _) =>
          .error "nested field mapping is not a representable dtype"
  | .fldNoDatatype _ _ _, _ => .error "Field entry has no datatype"
def decodeListAux (sysBo : Bo) : DList → String → Except String (List Field3)
  | .nil, _ => .ok []
  | .cons x xs, bo =>
      match decodeAux sysBo x bo with
      | .error e => .error e
      | .ok (.fldT n t sh) =>
          match decodeListAux sysBo xs bo with
          | .error e => .error e
          | .ok rest => .ok ((n, t, sh) :: rest)
      | .ok (.dt t) =>
          match decodeListAux sysBo xs bo with
          | .error e => .error e
          | .ok rest => .ok (("", t, none) :: rest)
end

/-- Mirrors `asdf_datatype_to_numpy_dtype(datatype, byteorder=None)`:
`byteorder` defaults to `sys.byteorder`. -/
def asdf_datatype_to_numpy_dtype (sysBo : Bo) (d : DNode)
    (byteorder : Option String) : Except String DecRes :=
  decodeAux sysBo d (byteorder.getD sysBo.str)

/-! ## numpy_dtype_to_asdf_datatype (encode) -/

/-- Mirrors `numpy_byteorder_to_asdf_byteorder` on a canonical numpy
byte-order character. -/
def numpy_byteorder_to_asdf_byteorder (sysBo : Bo) (bo : NpBo)
    (override : Option String) : String :=
  match override with
  | some o => o
  | none =>
      match bo with
      | .native => sysBo.str
      | .little => "little"
      | _ => "big"

def NpBase.asdfName : NpBase → String
  | .int8 => "int8"
  | .int16 => "int16"
  | .int32 => "int32"
  | .int64 => "int64"
  | .uint8 => "uint8"
  | .uint16 => "uint16"
  | .uint32 => "uint32"
  | .uint64 => "uint64"
  | .float32 => "float32"
  | .float64 => "float64"
  | .complex64 => "complex64"
  | .complex128 => "complex128"
  | .bool8 => "bool8"
  | .bytesS _ => ""
  | .ucs4 _ => ""

def dpair (c : String) (n : Nat) : DList :=
  .cons (.s c) (.cons (.i (Int.ofNat n)) .nil)

mutual
/-- Mirrors `numpy_dtype_to_asdf_datatype(dtype, include_byteorder,
override_byteorder)`, returning the descriptor and the resolved ASDF
byte-order string.  A field with a sub-array shape corresponds to the
Python `dtype.subdtype` recursion (encode the base, emit the shape). -/
def numpy_dtype_to_asdf_datatype (sysBo : Bo) :
    NpDtype → Bool → Option String → DNode × String
  | .record fs, incBo, ov =>
      (.l (encodeFields sysBo fs incBo ov),
       numpy_byteorder_to_asdf_byteorder sysBo .na ov)
  | .scalar bo b, _incBo, ov =>
      match b with
      | .bytesS n => (.l (dpair "ascii" n), "big")
      | .ucs4 n => (.l (dpair "ucs4" n),
                    numpy_byteorder_to_asdf_byteorder sysBo bo ov)
      | _ => (.s b.asdfName, numpy_byteorder_to_asdf_byteorder sysBo bo ov)
def encodeFields (sysBo : Bo) : NpFields → Bool → Option String → DList
  | .nil, _, _ => .nil
  | .cons n t sh rest, incBo, ov =>
      let r := numpy_dtype_to_asdf_datatype sysBo t true ov
      .cons (.fld (some n) (if incBo then some r.2 else none) sh r.1)
            (encodeFields sysBo rest incBo ov)
end

/-! ## Well-formed (canonical, representable) numpy dtypes -/

/-- The byte-order invariant a dtype constructed by numpy satisfies on host
order `sysBo`. -/
def wfScalar (sysBo : Bo) (bo : NpBo) (base : NpBase) : Bool :=
  if base.boIrrelevant then bo = .na
  else
    match bo with
    | .native => true
    | .na => false
    | .big => sysBo = .little
    | .little => sysBo = .big

mutual
/-- A dtype actually producible by numpy: canonical byte orders, records
nonempty with distinct nonempty field names, field sub-shapes nonempty
when present. -/
def wfDtype (sysBo : Bo) : NpDtype → Bool
  | .scalar bo b => wfScalar sysBo bo b
  | .record fs =>
      (!(decide (fs = .nil))) && decide fs.names.Nodup && wfFields sysBo fs
def wfFields (sysBo : Bo) : NpFields → Bool
  | .nil => true
  | .cons n t sh rest =>
      (!(decide (n = ""))) && wfDtype sysBo t &&
      (!(decide (sh = some []))) && wfFields sysBo rest
end

/-! ## Shape specs and the shape resolver (`NDArrayType.get_actual_shape`) -/

/-- One entry of a descriptor shape: a concrete size or the `*` wildcard. -/
inductive Dim where
  | star
  | size (n : Nat)
deriving DecidableEq, Repr

def dimsProd (l : List Dim) : Nat :=
  (l.map (fun d => match d with | .star => 0 | .size n => n)).prod

def dimNats : List Dim → Option (List Nat)
  | [] => some []
  | .star :: _ => none
  | .size n :: rest => (dimNats rest).map (n :: ·)

def natDims (l : List Nat) : List Dim := l.map Dim.size

/-- The stride of dimension 0 used by `get_actual_shape`:
`strides[0] if strides is not None else np.prod(shape[1:]) * dtype.itemsize`.
The dtype slot holds the decoded descriptor (`None`, a dtype, or a field
tuple); only a real dtype has an `itemsize`. -/
def strideOfDim0 (strides : Option (List Nat)) (tail : List Dim)
    (dtype : Option DecRes) : Except String Nat :=
  match strides with
  | some (s :: _) => .ok s
  | some [] => .error "IndexError: strides is empty"
  | none =>
      match dtype with
      | some (.dt t) => .ok (dimsProd tail * t.itemsize)
      | _ => .error "AttributeError: dtype has no itemsize"

/-- Mirrors `NDArrayType.get_actual_shape(shape, strides, dtype, block_size)`.
A zero stride makes the Python division fail (ZeroDivisionError or, after
numpy float division, an overflow converting inf to int). -/
def get_actual_shape (shape : List Dim) (strides : Option (List Nat))
    (dtype : Option DecRes) (block_size : Nat) : Except String (List Dim) :=
  let numStars := shape.count Dim.star
  if numStars = 0 then .ok shape
  else if numStars = 1 then
    if shape.head? ≠ some Dim.star then
      .error "star may only be in first entry of shape"
    else
      match strideOfDim0 strides shape.tail dtype with
      | .error e => .error e
      | .ok stride =>
          if stride = 0 then .error "division by zero stride"
          else .ok (Dim.size (block_size / stride) :: shape.tail)
  else .error "Invalid shape"

/-! ## Inline literals and `inline_data_asarray`

An inline data node is a nested Python literal: `None`, a number, or a
list.  The model tracks the shape of the numpy array the literal
materializes to (which is all the verified properties inspect). -/

mutual
inductive Lit where
  | pyNone
  | int (n : Int)
  | lst (xs : LitL)
deriving DecidableEq, Repr
inductive LitL where
  | nil
  | cons (x : Lit) (xs : LitL)
deriving DecidableEq, Repr
end

def litOf : List Lit → LitL
  | [] => .nil
  | x :: xs => .cons x (litOf xs)

def LitL.length : LitL → Nat
  | .nil => 0
  | .cons _ xs => 1 + xs.length

mutual
/-- The shape `np.ma.asarray` gives a rectangular nested literal; a ragged
literal raises. -/
def litShape : Lit → Except String (List Nat)
  | .pyNone => .ok []
  | .int _ => .ok []
  | .lst xs => litShapeL xs
def litShapeL : LitL → Except String (List Nat)
  | .nil => .ok [0]
  | .cons x xs =>
      match litShape x with
      | .error e => .error e
      | .ok s =>
          match litShapeRest xs s with
          | .error e => .error e
          | .ok n => .ok ((1 + n) :: s)
def litShapeRest : LitL → List Nat → Except String Nat
  | .nil, _ => .ok 0
  | .cons x xs, s =>
      match litShape x with
      | .error e => .error e
      | .ok s2 =>
          if s2 = s then
            match litShapeRest xs s with
            | .error e => .error e
            | .ok n => .ok (n + 1)
          else .error "ragged nested literal"
end

def LitL.isScalarEntry : Lit → Bool
  | .lst _ => false
  | _ => true

def LitL.allScalar : LitL → Bool
  | .nil => true
  | .cons x xs => isScalarEntry x && xs.allScalar

def NpFields.count : NpFields → Nat
  | .nil => 0
  | .cons _ _ _ rest => 1 + rest.count

/-- Models the `np.asarray(tuple(line), dtype=dtype)` probe inside
`find_innermost_match`: a list converts to one structured-record scalar
when it has exactly one entry per field and each entry is itself a
scalar literal. -/
def recordTupleOk (fs : NpFields) (l : Lit) : Bool :=
  match l with
  | .lst xs => decide (xs.length = fs.count) && xs.allScalar
  | _ => false

/-- Mirrors `find_innermost_match`: descend into the first element of each
nesting level until a level converts as one record tuple; return that
depth. -/
def find_innermost_match (fs : NpFields) : Lit → Except String Nat
  | .pyNone => .error "data can not be converted to structured array"
  | .int _ => .error "data can not be converted to structured array"
  | .lst .nil => .error "data can not be converted to structured array"
  | .lst (.cons x xs) =>
      if recordTupleOk fs (.lst (.cons x xs)) then .ok 0
      else
        match find_innermost_match fs x with
        | .error e => .error e
        | .ok d => .ok (d + 1)

mutual
/-- The shape of the structured array built after `convert_to_tuples`:
the literal nesting above the record depth must be rectangular. -/
def litShapeToDepth : Lit → Nat → Except String (List Nat)
  | _, 0 => .ok []
  | .lst xs, d + 1 => litShapeToDepthL xs d
  | _, _ + 1 => .error "data can not be converted to structured array"
def litShapeToDepthL : LitL → Nat → Except String (List Nat)
  | .nil, _ => .ok [0]
  | .cons x xs, d =>
      match litShapeToDepth x d with
      | .error e => .error e
      | .ok s =>
          match litShapeToDepthRest xs d s with
          | .error e => .error e
          | .ok n => .ok ((1 + n) :: s)
def litShapeToDepthRest : LitL → Nat → List Nat → Except String Nat
  | .nil, _, _ => .ok 0
  | .cons x xs, d, s =>
      match litShapeToDepth x d with
      | .error e => .error e
      | .ok s2 =>
          if s2 = s then
            match litShapeToDepthRest xs d s with
            | .error e => .error e
            | .ok n => .ok (n + 1)
          else .error "ragged nested literal"
end

/-- Mirrors `inline_data_asarray(inline, dtype)`, tracking the shape of the
resulting array (mask handling via `handle_mask` replaces `None` leaves and
leaves the shape unchanged, so it does not appear here).  A field-tuple
dtype makes `np.asarray` raise. -/
def inline_data_asarray (dtype : Option DecRes) (l : Lit) :
    Except String (List Nat) :=
  match dtype with
  | some (.dt (.record fs)) =>
      match find_innermost_match fs l with
      | .error e => .error e
      | .ok depth => litShapeToDepth l depth
  | some (.fldT _ _ _) => .error "TypeError: field tuple is not a dtype"
  | _ => litShape l

/-! ## The lazy array view (`NDArrayType`)

The view's storage source.  `from_tree` stores a list/scalar for inline
data, an integer-keyed data callback for an internal block, a
weakref-based callback for an external block; legacy construction can
leave a bare string or `None`. -/

inductive Src where
  | pyNone
  | lit (l : Lit)
  | strName (s : String)
  | callback (blockId : Int)
  | extCallback (name : String)
deriving DecidableEq, Repr

/-- A concrete materialized array, as far as the verified properties
observe it: the identity of the bytes object it was built over, whether
that object is memory-map backed, and its shape.  Array identity in the
Python sense corresponds to equality of this record together with the
cache slot holding it. -/
structure ArrObj where
  dataId : Nat
  mmapBacked : Bool
  shape : List Nat
deriving DecidableEq, Repr

/-- `NDArrayType` state: constructor fields plus the `_array` cache. -/
structure NDArr where
  source : Src
  array : Option ArrObj
  mask : Option Unit
  shape : Option (List Dim)
  dtype : Option DecRes
  offset : Nat
  strides : Option (List Nat)
deriving DecidableEq, Repr

/-- Mirrors `NDArrayType.__init__`.  For an inline (list) source the array
is materialized eagerly and checked against the declared shape with the
condition written in the source:
`(shape[0] == "*" and array.shape[1:] != tuple(shape[1:])) or
 (array.shape != tuple(shape))`
(`array.shape[1:]` holds ints, `shape[1:]` may hold the star marker, so
the comparison is across the two kinds of entries; indexing `shape[0]` of
an empty declared shape raises). -/
def ndInit (source : Src) (shape : Option (List Dim)) (dtype : Option DecRes)
    (offset : Nat) (strides : Option (List Nat)) (mask : Option Unit) :
    Except String NDArr :=
  match source with
  | .lit (.lst xs) =>
      match inline_data_asarray dtype (.lst xs) with
      | .error e => .error e
      | .ok ash =>
          let base : NDArr :=
            { source := .lit (.lst xs), array := some ⟨0, false, ash⟩,
              mask := mask, shape := shape, dtype := dtype,
              offset := offset, strides := strides }
          match shape with
          | none => .ok base
          | some [] => .error "IndexError: shape is empty"
          | some (s0 :: stail) =>
              if (decide (s0 = Dim.star) && decide (¬ natDims (ash.drop 1) = stail))
                 || decide (¬ natDims ash = s0 :: stail) then
                .error "inline data does not match the given shape"
              else .ok base
  | src =>
      .ok { source := src, array := none, mask := mask, shape := shape,
            dtype := dtype, offset := offset, strides := strides }

/-- A bytes-like object served by a storage source. -/
structure BytesObj where
  id : Nat
  size : Nat
  mmapBacked : Bool
deriving DecidableEq, Repr

/-- The external world a view reads from: the per-block data callback
(`_attr="cached_data"`), the block header (`_attr="header"`), which bytes
objects currently have a closed backing memory map, and whether the
weakly referenced owning file of an external block is still alive. -/
structure Env where
  cachedData : Int → BytesObj
  headerDataSize : Int → Nat
  closed : Nat → Bool
  extResolve : String → Option BytesObj

/-- Obtaining the raw data object in `_make_array`: `self._source(...)` for
callables, `self._source` itself otherwise (lists, strings and `None` then
fail at the `data.size` attribute access). -/
def fetchData (env : Env) : Src → Except String BytesObj
  | .callback b => .ok (env.cachedData b)
  | .extCallback n =>
      match env.extResolve n with
      | some d => .ok d
      | none => .error "Failed to resolve reference to AsdfFile to read external block"
  | .lit _ => .error "AttributeError: object has no attribute size"
  | .strName _ => .error "AttributeError: object has no attribute size"
  | .pyNone => .error "AttributeError: object has no attribute size"

/-- The `if self._array is None:` body of `_make_array`: fetch the raw
bytes, reject a closed backing map, resolve the shape against the byte
count, build the strided array, fill the cache.  Applying the mask
(`_apply_mask`) preserves the quantities `ArrObj` tracks, so it does not
change the record. -/
def make_array_build (env : Env) (v : NDArr) : NDArr × Except String ArrObj :=
  match fetchData env v.source with
  | .error e => (v, .error e)
  | .ok data =>
      if data.mmapBacked && env.closed data.id then
        (v, .error "Attempt to read data from a closed file")
      else
        match v.shape with
        | none => (v, .error "AttributeError: shape is None")
        | some sh =>
            match get_actual_shape sh v.strides v.dtype data.size with
            | .error e => (v, .error e)
            | .ok rsh =>
                match dimNats rsh with
                | none => (v, .error "TypeError: star dimension")
                | some ns =>
                    let a : ArrObj := ⟨data.id, data.mmapBacked, ns⟩
                    ({ v with array := some a }, .ok a)

/-- Mirrors `NDArrayType._make_array`, returning the post-call view state
together with the array (or the raised exception): first the defensive
invalidation of a cache whose backing memory map has been closed, then
either the cached array or a fresh build. -/
def make_array (env : Env) (v : NDArr) : NDArr × Except String ArrObj :=
  let v1 : NDArr :=
    match v.array with
    | some a =>
        if a.mmapBacked && env.closed a.dataId then { v with array := none } else v
    | none => v
  match v1.array with
  | some a => (v1, .ok a)
  | none => make_array_build env v1

/-- Mirrors the `NDArrayType.shape` property.  Branch order as in the
source: materialize when the spec is absent or the cache is filled;
otherwise, for a wildcard spec, use the block header byte count when the
source is callable and the count is nonzero, else materialize; otherwise
return the spec directly. -/
def shape_prop (env : Env) (v : NDArr) : NDArr × Except String (List Nat) :=
  let viaArray : NDArr × Except String (List Nat) :=
    match make_array env v with
    | (v2, .ok a) => (v2, .ok a.shape)
    | (v2, .error e) => (v2, .error e)
  match v.shape with
  | none => viaArray
  | some sh =>
      if v.array ≠ none then viaArray
      else if sh.contains Dim.star then
        match v.source with
        | .strName _ => viaArray
        | .callback b =>
            let dataSize := env.headerDataSize b
            if dataSize = 0 then viaArray
            else
              match get_actual_shape sh v.strides v.dtype dataSize with
              | .error e => (v, .error e)
              | .ok rsh =>
                  match dimNats rsh with
                  | none => (v, .error "TypeError: star dimension")
                  | some ns => (v, .ok ns)
        | _ =>
            (v, .error "TypeError: source is not callable")
      else
        (v, .ok (sh.map (fun d => match d with | .star => 0 | .size n => n)))

/-- Mirrors `NDArrayType.__setitem__`: the underlying assignment outcome is
`none` for success or `some e` when the host array library raises `e`.
Any exception inside the `try` block (including one from `_make_array`)
clears the cache and is re-raised. -/
def setitem (env : Env) (v : NDArr) (assignOutcome : Option String) :
    NDArr × Option String :=
  match make_array env v with
  | (v2, .error e) => ({ v2 with array := none }, some e)
  | (v2, .ok _) =>
      match assignOutcome with
      | none => (v2, none)
      | some e => ({ v2 with array := none }, some e)

/-! ## `NDArrayType.from_tree` -/

/-- Mirrors the list branch of `NDArrayType.from_tree`: the node is itself
the inline source; all descriptor fields default to `None`. -/
def from_tree_list (lazyLoad : Bool) (env : Env) (l : LitL) :
    Except String NDArr :=
  match ndInit (.lit (.lst l)) none none 0 none none with
  | .error e => .error e
  | .ok inst =>
      if lazyLoad then .ok inst
      else
        match make_array env inst with
        | (v2, .ok _) => .ok v2
        | (_, .error e) => .error e

/-! ## `NDArrayType._apply_mask` on concrete numeric arrays

Array elements are exact rationals plus a NaN marker; this captures the
semantic content of the float/`isclose` behaviour without floating-point
rounding (the quantities involved are tiny and exactly representable). -/

inductive Elem where
  | nan
  | q (v : ℚ)
deriving DecidableEq

def Elem.isNan : Elem → Bool
  | .nan => true
  | .q _ => false

/-- `np.isclose(x, value)` with the defaults used by `ma.masked_values`:
`|x - value| <= atol + rtol * |value|`, `atol = 1e-8`, `rtol = 1e-5`;
false for NaN. -/
def iscloseB (a : Elem) (v : ℚ) : Bool :=
  match a with
  | .nan => false
  | .q x => decide (|x - v| ≤ 1 / 100000000 + (1 / 100000) * |v|)

/-- Exact elementwise equality (`umath.equal`); NaN equals nothing. -/
def exactEqB (a : Elem) (v : ℚ) : Bool :=
  match a with
  | .nan => false
  | .q x => decide (x = v)

/-- `ma.masked_values(array, value)`: for floating-point arrays the mask is
`np.isclose(...)`, otherwise exact equality; with the default
`shrink=True` an all-false mask collapses to `nomask`. -/
def masked_values (isFloat : Bool) (xs : List Elem) (v : ℚ) :
    List Elem × Option (List Bool) :=
  let m := if isFloat then xs.map (iscloseB · v) else xs.map (exactEqB · v)
  (xs, if m.contains true then some m else none)

/-- A mask specification as `_apply_mask` receives it. -/
inductive MaskSpec where
  | arr (m : List Bool)
  | scalarNan
  | scalar (v : ℚ)
deriving DecidableEq

/-- Mirrors `NDArrayType._apply_mask` on an array of kind-`isFloat`
elements: an explicit mask array wraps directly, a NaN scalar masks NaN
positions, any other scalar goes through `ma.masked_values`, and an absent
mask returns the array untouched. -/
def apply_mask (isFloat : Bool) (xs : List Elem) :
    Option MaskSpec → List Elem × Option (List Bool)
  | none => (xs, none)
  | some (.arr m) => (xs, some m)
  | some .scalarNan => (xs, some (xs.map Elem.isNan))
  | some (.scalar v) => masked_values isFloat xs v

/-! ## `NDArrayType.to_tree` (serializer / storage-strategy selector) -/

inductive StorageKind where
  | inline
  | internal
  | external
  | streamed
deriving DecidableEq, Repr

/-- Block-storage options attached to an array base. -/
structure WOptions where
  storageType : StorageKind
  compression : Option String
deriving DecidableEq, Repr

/-- The `config_context` snapshot read in `to_tree`. -/
structure Cfg where
  allArrayStorage : Option StorageKind
  allArrayCompression : String
  inlineThreshold : Option Nat
deriving DecidableEq, Repr

/-- A concrete (write-side) numpy array as `to_tree` observes it. -/
structure NpArrM where
  shape : List Nat
  hasZeroStride : Bool
  baseContiguous : Bool
  cContiguous : Bool
  offsetFromBase : Nat
  strides : List Int
  dtype : NpDtype
  maskedAny : Bool
  srcExternalName : Option String
deriving DecidableEq, Repr

/-- `np.ascontiguousarray`: same shape and contents, contiguous layout,
coinciding with its own base. -/
def contigCopy (a : NpArrM) : NpArrM :=
  { a with hasZeroStride := false, baseContiguous := true,
           cContiguous := true, offsetFromBase := 0 }

/-- The first two normalization steps of `to_tree` (zero strides; then a
non-contiguous base). -/
def normalizeData (a : NpArrM) : NpArrM :=
  let d1 := if a.hasZeroStride then contigCopy a else a
  if !d1.baseContiguous then contigCopy d1 else d1

/-- Storage-option resolution in `to_tree`: the external-source default,
the `config_context` overrides, then the inline-threshold adjustment
(which only reconsiders inline/internal choices). -/
def effectiveOptions (a : NpArrM) (lookupRes : Option WOptions)
    (getOpts : WOptions) (cfg : Cfg) : WOptions :=
  let o0 :=
    match a.srcExternalName with
    | some _ => lookupRes.getD ⟨.external, none⟩
    | none => getOpts
  let o1 :=
    match cfg.allArrayStorage with
    | some st => { o0 with storageType := st }
    | none => o0
  let o2 :=
    if cfg.allArrayCompression ≠ "input" then
      { o1 with compression := some cfg.allArrayCompression }
    else o1
  match cfg.inlineThreshold with
  | some thr =>
      if o2.storageType = .inline ∨ o2.storageType = .internal then
        if (normalizeData a).shape.prod < thr then
          { o2 with storageType := .inline }
        else { o2 with storageType := .internal }
      else o2
  | none => o2

/-- The emitted descriptor payload (`result` dict of `to_tree`).  Inline
literal contents and mask contents are opaque here (their semantics are
covered by `inline_data_asarray` and `apply_mask`). -/
structure Payload where
  shape : List Dim
  data : Option Unit
  datatype : DNode
  byteorder : Option String
  source : Option Int
  offset : Option Nat
  strides : Option (List Int)
  mask : Option Unit
deriving DecidableEq, Repr

/-- Mirrors `NDArrayType.to_tree`.  `lookupRes` is
`ctx._blocks.options.lookup_by_object(data)`, `getOpts` is
`ctx._blocks.options.get_options(data)`, and `writeHandle` is the handle
`ctx._blocks.make_write_block` would assign.  Assigning `"*"` to entry 0
of an empty shape list raises. -/
def to_tree (sysBo : Bo) (a0 : NpArrM) (lookupRes : Option WOptions)
    (getOpts : WOptions) (cfg : Cfg) (writeHandle : Int) :
    Except String Payload :=
  let data := normalizeData a0
  let shape := data.shape
  let opts := effectiveOptions a0 lookupRes getOpts cfg
  let offset := data.offsetFromBase
  let strides : Option (List Int) :=
    if data.cContiguous then none else some data.strides
  let enc := numpy_dtype_to_asdf_datatype sysBo data.dtype
      (decide (opts.storageType ≠ .inline)) none
  let shapeE : Except String (List Dim) :=
    if opts.storageType = .streamed then
      match shape with
      | [] => .error "IndexError: shape is empty"
      | _ :: rest => .ok (Dim.star :: natDims rest)
    else .ok (natDims shape)
  match shapeE with
  | .error e => .error e
  | .ok shape1 =>
      if opts.storageType = .inline then
        .ok { shape := shape1, data := some (), datatype := enc.1,
              byteorder := none, source := none, offset := none,
              strides := none,
              mask := if data.maskedAny then some () else none }
      else
        .ok { shape := shape1, data := none, datatype := enc.1,
              byteorder := some enc.2,
              source := some (if opts.storageType = .streamed then -1 else writeHandle),
              offset := if offset > 0 then some offset else none,
              strides := strides,
              mask := if data.maskedAny then some () else none }

/-! ## Schema validators -/

/-- A candidate value handed to a validator: a raw literal list, a mapping
node, a concrete/lazy array, or something that is not array-like at all. -/
inductive Inst where
  | lst (xs : LitL)
  | dct (shape : Option (List Dim)) (data : Option Lit) (datatype : Option DNode)
  | arrI (shape : List Nat) (dtype : NpDtype)
  | other
deriving Repr

/-- Mirrors `_get_ndim`; `none` means the Python function returned `None`
(value not array-like). -/
def get_ndim : Inst → Except String (Option Nat)
  | .lst l =>
      match inline_data_asarray none (.lst l) with
      | .error e => .error e
      | .ok s => .ok (some s.length)
  | .dct sh data _ =>
      match sh with
      | some s => .ok (some s.length)
      | none =>
          match data with
          | some d =>
              match inline_data_asarray none d with
              | .error e => .error e
              | .ok s => .ok (some s.length)
          | none => .ok none
  | .arrI sh _ => .ok (some sh.length)
  | .other => .ok none

/-- A validator run: the yielded diagnostics, then an optionally raised
exception. -/
abbrev VRes := List String × Option String

/-- Mirrors `validate_ndim` (a generator: it only ever yields). -/
def validate_ndim (ndim : Nat) (inst : Inst) : VRes :=
  match get_ndim inst with
  | .error e => ([], some e)
  | .ok inNdim =>
      if inNdim ≠ some ndim then (["Wrong number of dimensions"], none)
      else ([], none)

/-- Mirrors `validate_max_ndim`: `in_ndim > max_ndim` raises a `TypeError`
when `_get_ndim` returned `None`. -/
def validate_max_ndim (maxNdim : Nat) (inst : Inst) : VRes :=
  match get_ndim inst with
  | .error e => ([], some e)
  | .ok none => ([], some "TypeError: NoneType is not orderable with int")
  | .ok (some k) =>
      (if k > maxNdim then ["Wrong number of dimensions"] else [], none)

mutual
def litAnyNone : Lit → Bool
  | .pyNone => true
  | .int _ => false
  | .lst xs => litAnyNoneL xs
def litAnyNoneL : LitL → Bool
  | .nil => false
  | .cons x xs => litAnyNone x || litAnyNoneL xs
end

mutual
def litAnyInt : Lit → Bool
  | .pyNone => false
  | .int _ => true
  | .lst xs => litAnyIntL xs
def litAnyIntL : LitL → Bool
  | .nil => false
  | .cons x xs => litAnyInt x || litAnyIntL xs
end

/-- Models the dtype numpy infers for an integer literal on a 64-bit host:
`int64` for integer contents, `float64` for an empty nesting; a literal
containing `None` materializes with object dtype, whose ASDF encoding then
raises `Unknown dtype`. -/
def litInferDtype (l : Lit) : Except String NpDtype :=
  if litAnyNone l then .error "Unknown dtype object"
  else if litAnyInt l then .ok (.scalar .native .int64)
  else .ok (.scalar .native .float64)

/-- Models `np.can_cast(from, to, "safe")` on scalar kinds (byte order is
irrelevant to castability).  numpy additionally permits numeric-to-string
casts of sufficient width; those do not occur in this development and are
conservatively omitted. -/
def canCastScalarSafe (a b : NpBase) : Bool :=
  if a = b then true
  else
    match a, b with
    | .bool8, .bytesS _ => false
    | .bool8, .ucs4 _ => false
    | .bool8, _ => true
    | .int8, .int16 => true
    | .int8, .int32 => true
    | .int8, .int64 => true
    | .int16, .int32 => true
    | .int16, .int64 => true
    | .int32, .int64 => true
    | .int8, .float32 => true
    | .int16, .float32 => true
    | .int8, .float64 => true
    | .int16, .float64 => true
    | .int32, .float64 => true
    | .int8, .complex64 => true
    | .int16, .complex64 => true
    | .int8, .complex128 => true
    | .int16, .complex128 => true
    | .int32, .complex128 => true
    | .uint8, .uint16 => true
    | .uint8, .uint32 => true
    | .uint8, .uint64 => true
    | .uint16, .uint32 => true
    | .uint16, .uint64 => true
    | .uint32, .uint64 => true
    | .uint8, .int16 => true
    | .uint8, .int32 => true
    | .uint8, .int64 => true
    | .uint16, .int32 => true
    | .uint16, .int64 => true
    | .uint32, .int64 => true
    | .uint8, .float32 => true
    | .uint16, .float32 => true
    | .uint8, .float64 => true
    | .uint16, .float64 => true
    | .uint32, .float64 => true
    | .uint8, .complex64 => true
    | .uint16, .complex64 => true
    | .uint8, .complex128 => true
    | .uint16, .complex128 => true
    | .uint32, .complex128 => true
    | .float32, .float64 => true
    | .float32, .complex64 => true
    | .float32, .complex128 => true
    | .float64, .complex128 => true
    | .complex64, .complex128 => true
    | .bytesS n, .bytesS m => decide (n ≤ m)
    | .ucs4 n, .ucs4 m => decide (n ≤ m)
    | _, _ => false

/-- `np.can_cast` on whole dtypes: the scalar rule for scalars; a
structured dtype safely casts only to an identical one. -/
def canCastDtypeSafe (a b : NpDtype) : Bool :=
  match a, b with
  | .scalar _ ba, .scalar _ bb => canCastScalarSafe ba bb
  | a, b => decide (a = b)

/-- Field-against-field cast check (`np.can_cast(np_in[i], np_out[i])`);
a sub-array field carries its shape into the comparison. -/
def canCastFieldSafe (a b : NpDtype × Option (List Nat)) : Bool :=
  decide (collapseShape a.2 = collapseShape b.2) && canCastDtypeSafe a.1 b.1

/-- The per-column loop of `validate_datatype`: iterate over the expected
fields, indexing the actual fields positionally (an index past the end of
the actual fields raises). -/
def castLoop : List Field3 → List Field3 → List String × Option String
  | _, [] => ([], none)
  | [], _ :: _ => ([], some "KeyError: field index out of range")
  | fin :: restIn, fout :: restOut =>
      let d : List String :=
        if !(canCastFieldSafe (fin.2.1, fin.2.2) (fout.2.1, fout.2.2)) then
          ["Can not safely cast to expected datatype"]
        else []
      let r := castLoop restIn restOut
      (d ++ r.1, r.2)

def asDtOnly : DecRes → Except String NpDtype
  | .dt t => .ok t
  | .fldT _ _ _ => .error "AttributeError: tuple has no attribute fields"

/-- The in-datatype extraction at the top of `validate_datatype`; raises
`ValidationError("Not an array")` for values that are not array-like. -/
def inDatatypeOf (sysBo : Bo) : Inst → Except String DNode
  | .lst l =>
      match inline_data_asarray none (.lst l) with
      | .error e => .error e
      | .ok _ =>
          match litInferDtype (.lst l) with
          | .error e => .error e
          | .ok t => .ok (numpy_dtype_to_asdf_datatype sysBo t true none).1
  | .dct _ data dt =>
      match dt with
      | some d => .ok d
      | none =>
          match data with
          | some d =>
              match inline_data_asarray none d with
              | .error e => .error e
              | .ok _ =>
                  match litInferDtype d with
                  | .error e => .error e
                  | .ok t => .ok (numpy_dtype_to_asdf_datatype sysBo t true none).1
          | none => .error "Not an array"
  | .arrI _ t => .ok (numpy_dtype_to_asdf_datatype sysBo t true none).1
  | .other => .error "Not an array"

/-- Mirrors `validate_datatype` (`exact` is `schema.get("exact_datatype",
False)`).  Note the generator falls through after the exact-datatype
yield, and the structured branch calls `len` on the `fields` of a scalar
actual dtype, which is `None`. -/
def validate_datatype (sysBo : Bo) (datatype : DNode) (exact : Bool)
    (inst : Inst) : VRes :=
  match inDatatypeOf sysBo inst with
  | .error e => ([], some e)
  | .ok inDt =>
      if datatype = inDt then ([], none)
      else
        let acc0 : List String :=
          if exact then ["Expected datatype exact mismatch"] else []
        match asdf_datatype_to_numpy_dtype sysBo datatype none with
        | .error e => (acc0, some e)
        | .ok r1 =>
            match asdf_datatype_to_numpy_dtype sysBo inDt none with
            | .error e => (acc0, some e)
            | .ok r2 =>
                match asDtOnly r1 with
                | .error e => (acc0, some e)
                | .ok npDt =>
                    match asDtOnly r2 with
                    | .error e => (acc0, some e)
                    | .ok npIn =>
                        match npDt with
                        | .scalar _ _ =>
                            let acc1 := acc0 ++
                              (match npIn with
                               | .record _ => ["Expected scalar datatype"]
                               | _ => [])
                            let acc2 := acc1 ++
                              (if !(canCastDtypeSafe npIn npDt) then
                                ["Can not safely cast"] else [])
                            (acc2, none)
                        | .record fsOut =>
                            match npIn with
                            | .scalar _ _ =>
                                (acc0 ++ ["Expected structured datatype"],
                                 some "TypeError: len of None")
                            | .record fsIn =>
                                let acc2 := acc0 ++
                                  (if fsIn.count ≠ fsOut.count then
                                    ["Mismatch in number of columns"] else [])
                                let r := castLoop (fieldsToList fsIn) (fieldsToList fsOut)
                                (acc2 ++ r.1, r.2)

/-- Whether position `i` is marked in a mask-application result (an absent
mask marks nothing). -/
def maskAt (r : List Elem × Option (List Bool)) (i : Nat) : Bool :=
  match r.2 with
  | none => false
  | some m => (m[i]?).getD false

/-! ## Sample values used by the concrete evaluation theorems -/

def envA : Env := ⟨fun _ => ⟨5, 12, true⟩, fun _ => 12, fun _ => false, fun _ => none⟩

/-- Like `envA` after an in-place rewrite: the bytes object 5 has had its
backing map closed, and the callback now serves fresh bytes (id 9). -/
def envB : Env := ⟨fun _ => ⟨9, 12, true⟩, fun _ => 12, fun i => decide (i = 5), fun _ => none⟩

def viewA : NDArr :=
  ⟨.callback 0, none, none, some [Dim.size 2, Dim.size 3],
   some (.dt (.scalar .native .int16)), 0, none⟩

def dtypeA : NpDtype :=
  .record (.cons "a" (.scalar .native .float64) none
    (.cons "b" (.scalar .na .uint8) (some [2, 3])
    (.cons "c" (.scalar .na (.bytesS 5)) none .nil)))

/-- The inline literal `[[1, 2], [3, 4], [5, 6]]` (array shape (3, 2)). -/
def inlineA : Lit :=
  .lst (litOf [.lst (litOf [.int 1, .int 2]), .lst (litOf [.int 3, .int 4]),
    .lst (litOf [.int 5, .int 6])])

def arrA : NpArrM :=
  ⟨[5, 2], false, true, true, 0, [16, 8], .scalar .native .int64, false, none⟩

def cfgStreamed : Cfg := ⟨some .streamed, "input", none⟩

theorem decode_dpair (sysBo : Bo) (c : String) (k : Nat → NpBase) (n : Nat)
    (bo : String) (bc : BoChar) (hck : stringKindOf c = some k)
    (hbo : asdf_byteorder_to_numpy_byteorder bo = .ok bc) :
    decodeAux sysBo (.l (dpair c n)) bo
      = .ok (.dt (.scalar (mkNpBo sysBo bc (k n)) (k n))) := by
  simp only [decodeAux, dpair, strFormOf, hck, hbo]
  have hlt : ¬ (Int.ofNat n < 0) := Int.not_lt.mpr (Int.ofNat_nonneg n)
  simp [hlt, Int.toNat_ofNat]

theorem roundtrip_scalar (sysBo : Bo) (bo : NpBo) (base : NpBase)
    (h : wfScalar sysBo bo base = true) :
    decodeAux sysBo (numpy_dtype_to_asdf_datatype sysBo (.scalar bo base) true none).1
      (numpy_dtype_to_asdf_datatype sysBo (.scalar bo base) true none).2
      = .ok (.dt (.scalar bo base)) := by
  cases base <;>
    try (cases bo <;> cases sysBo <;> revert h <;> decide)
  case bytesS n =>
    have hbo : bo = .na := by
      simpa [wfScalar, NpBase.boIrrelevant] using h
    subst hbo
    have := decode_dpair sysBo "ascii" NpBase.bytesS n "big" .gt rfl rfl
    simpa [numpy_dtype_to_asdf_datatype, mkNpBo, NpBase.boIrrelevant] using this
  case ucs4 n =>
    have hgt : ∀ sb : Bo, decodeAux sb (.l (dpair "ucs4" n)) "big"
        = .ok (.dt (.scalar (mkNpBo sb .gt (.ucs4 n)) (.ucs4 n))) :=
      fun sb => decode_dpair sb "ucs4" NpBase.ucs4 n "big" .gt rfl rfl
    have hlt : ∀ sb : Bo, decodeAux sb (.l (dpair "ucs4" n)) "little"
        = .ok (.dt (.scalar (mkNpBo sb .lt (.ucs4 n)) (.ucs4 n))) :=
      fun sb => decode_dpair sb "ucs4" NpBase.ucs4 n "little" .lt rfl rfl
    cases bo <;> cases sysBo <;>
      simp_all [wfScalar, NpBase.boIrrelevant, numpy_dtype_to_asdf_datatype,
        numpy_byteorder_to_asdf_byteorder, Bo.str, mkNpBo, Bo.char]

theorem collapseShape_id (o : Option (List Nat)) (h : o ≠ some []) :
    collapseShape o = o := by
  match o with
  | none => rfl
  | some [] => exact absurd rfl h
  | some (x :: xs) => rfl

theorem autoname_id (i : Nat) (l : List Field3) (h : ∀ f ∈ l, f.1 ≠ "") :
    autoname i l = l := by
  induction l generalizing i with
  | nil => rfl
  | cons f rest ih =>
      have hf : f.1 ≠ "" := h f (List.mem_cons_self f rest)
      simp only [autoname, if_neg hf]
      rw [ih (i + 1) (fun g hg => h g (List.mem_cons_of_mem f hg))]

theorem mapCollapse_id (l : List Field3) (h : ∀ f ∈ l, f.2.2 ≠ some []) :
    l.map (fun f => (f.1, f.2.1, collapseShape f.2.2)) = l := by
  induction l with
  | nil => rfl
  | cons f rest ih =>
      simp only [List.map_cons]
      rw [collapseShape_id f.2.2 (h f (List.mem_cons_self f rest)),
        ih (fun g hg => h g (List.mem_cons_of_mem f hg))]

theorem fieldsToList_props (sysBo : Bo) (fs : NpFields)
    (h : wfFields sysBo fs = true) :
    ∀ f ∈ fieldsToList fs, f.1 ≠ "" ∧ f.2.2 ≠ some [] := by
  match fs with
  | .nil => intro f hf; simp [fieldsToList] at hf
  | .cons n t sh rest =>
      simp only [wfFields, Bool.and_eq_true, Bool.not_eq_true',
        decide_eq_false_iff_not] at h
      intro f hf
      simp only [fieldsToList, List.mem_cons] at hf
      rcases hf with hf | hf
      · subst hf; exact ⟨h.1.1.1, h.1.2⟩
      · exact fieldsToList_props sysBo rest h.2 f hf

theorem names_eq_map (fs : NpFields) :
    fs.names = (fieldsToList fs).map (fun f => f.1) := by
  match fs with
  | .nil => rfl
  | .cons n t sh rest => simp [NpFields.names, fieldsToList, names_eq_map rest]

theorem fieldsOfList_toList (fs : NpFields) :
    fieldsOfList (fieldsToList fs) = fs := by
  match fs with
  | .nil => rfl
  | .cons n t sh rest => simp [fieldsToList, fieldsOfList, fieldsOfList_toList rest]

theorem npDtypeOfFields_of_wf (sysBo : Bo) (fs : NpFields)
    (hnodup : fs.names.Nodup) (hw : wfFields sysBo fs = true) :
    npDtypeOfFields (fieldsToList fs) = .ok (.dt (.record fs)) := by
  have hprops := fieldsToList_props sysBo fs hw
  have h1 : autoname 0 (fieldsToList fs) = fieldsToList fs :=
    autoname_id 0 _ (fun f hf => (hprops f hf).1)
  have h2 : (fieldsToList fs).map (fun f => (f.1, f.2.1, collapseShape f.2.2))
      = fieldsToList fs :=
    mapCollapse_id _ (fun f hf => (hprops f hf).2)
  have h3 : ((fieldsToList fs).map (fun f => f.1)).Nodup := by
    rw [← names_eq_map]; exact hnodup
  simp only [npDtypeOfFields, h1, h2, if_pos h3, fieldsOfList_toList]

mutual
theorem decode_encode_dtype (sysBo : Bo) (t : NpDtype)
    (h : wfDtype sysBo t = true) :
    decodeAux sysBo (numpy_dtype_to_asdf_datatype sysBo t true none).1
      (numpy_dtype_to_asdf_datatype sysBo t true none).2 = .ok (.dt t) := by
  match t with
  | .scalar bo base =>
      exact roundtrip_scalar sysBo bo base (by simpa [wfDtype] using h)
  | .record fs =>
      simp only [wfDtype, Bool.and_eq_true, Bool.not_eq_true', decide_eq_false_iff_not,
        decide_eq_true_eq] at h
      obtain ⟨⟨hnil, hnodup⟩, hw⟩ := h
      match fs, hnil, hnodup, hw with
      | .nil, hnil, _, _ => exact absurd rfl hnil
      | .cons n ty sh rest, _, hnodup, hw =>
          have hfields := decode_encode_fields sysBo (.cons n ty sh rest) hw "big"
          simp only [numpy_dtype_to_asdf_datatype, numpy_byteorder_to_asdf_byteorder]
          simp only [encodeFields] at hfields ⊢
          simp only [decodeAux, strFormOf, hfields]
          exact npDtypeOfFields_of_wf sysBo (.cons n ty sh rest) hnodup hw
theorem decode_encode_fields (sysBo : Bo) (fs : NpFields)
    (h : wfFields sysBo fs = true) (bo0 : String) :
    decodeListAux sysBo (encodeFields sysBo fs true none) bo0
      = .ok (fieldsToList fs) := by
  match fs with
  | .nil => rfl
  | .cons n t sh rest =>
      simp only [wfFields, Bool.and_eq_true, Bool.not_eq_eq_eq_not, Bool.not_true,
        decide_eq_false_iff_not] at h
      have ht := decode_encode_dtype sysBo t h.1.1.2
      have hrest := decode_encode_fields sysBo rest h.2 bo0
      simp only [encodeFields, decodeListAux, if_pos, decodeAux, Option.getD,
        ht, hrest, fieldsToList]
end

/-! ## Claim theorems -/

/-- C1: for every representable native element type T (a well-formed numpy
dtype: scalar kinds, fixed-width string/char kinds, and structured record
layouts with named, possibly-shaped fields), decoding the descriptor
produced by encoding T — with the byte order the encoder reports — yields
T again: `asdf_datatype_to_numpy_dtype(numpy_dtype_to_asdf_datatype(T)) == T`. -/
theorem C1_codec_roundtrip (sysBo : Bo) (t : NpDtype)
    (h : wfDtype sysBo t = true) :
    asdf_datatype_to_numpy_dtype sysBo
      (numpy_dtype_to_asdf_datatype sysBo t true none).1
      (some (numpy_dtype_to_asdf_datatype sysBo t true none).2)
      = .ok (.dt t) := by
  unfold asdf_datatype_to_numpy_dtype
  simpa [Option.getD] using decode_encode_dtype sysBo t h

/-- Concrete instance of C1: a three-field record (native float64, a
shaped uint8 field, a 5-byte string field) on a little-endian host. -/
theorem C1_codec_roundtrip_witness :
    wfDtype .little dtypeA = true
    ∧ asdf_datatype_to_numpy_dtype .little
        (numpy_dtype_to_asdf_datatype .little dtypeA true none).1
        (some (numpy_dtype_to_asdf_datatype .little dtypeA true none).2)
        = .ok (.dt dtypeA) :=
  ⟨by decide, C1_codec_roundtrip .little dtypeA (by decide)⟩

/-- C2 (code bug): constructing an inline view whose declared shape is
wildcard-leading fails even when the materialized trailing dimensions
match the declared trailing dimensions.  The inline literal
`[[1, 2], [3, 4], [5, 6]]` materializes with shape (3, 2); the declared
shape is `["*", 2]`; the trailing dimensions agree; yet `__init__` raises,
because its second disjunct compares the all-integer actual shape with the
wildcard-bearing declared shape unconditionally. -/
theorem C2_inline_wildcard_always_rejected :
    inline_data_asarray none inlineA = .ok [3, 2]
    ∧ natDims ([3, 2].drop 1) = [Dim.star, Dim.size 2].drop 1
    ∧ ndInit (.lit inlineA) (some [Dim.star, Dim.size 2]) none 0 none none
        = .error "inline data does not match the given shape" :=
  ⟨by decide, by decide, by decide⟩

/-- C3: `get_actual_shape` returns a wildcard-free spec unchanged; resolves
a single leading wildcard to `block_size div stride` (the declared
dimension-0 stride if present, else the product of the trailing dimension
sizes times the element item size) followed by the trailing dimensions;
and fails for a misplaced or repeated wildcard. -/
theorem C3_get_actual_shape_spec :
    (∀ shape strides dtype bs, shape.count Dim.star = 0 →
        get_actual_shape shape strides dtype bs = .ok shape)
    ∧ (∀ tl strides t bs stride, tl.count Dim.star = 0 →
        strideOfDim0 strides tl (some (.dt t)) = .ok stride → stride ≠ 0 →
        get_actual_shape (Dim.star :: tl) strides (some (.dt t)) bs
          = .ok (Dim.size (bs / stride) :: tl))
    ∧ (∀ shape strides dtype bs,
        (shape.count Dim.star = 1 ∧ shape.head? ≠ some Dim.star)
          ∨ 2 ≤ shape.count Dim.star →
        ∃ e, get_actual_shape shape strides dtype bs = .error e) := by
  refine ⟨?_, ?_, ?_⟩
  · intro shape strides dtype bs h
    simp [get_actual_shape, h]
  · intro tl strides t bs stride h0 hstride hnz
    have hcount : (Dim.star :: tl).count Dim.star = 1 := by
      simp [List.count_cons, h0]
    simp [get_actual_shape, hcount, hstride, hnz]
  · intro shape strides dtype bs h
    rcases h with ⟨h1, h2⟩ | h2
    · refine ⟨"star may only be in first entry of shape", ?_⟩
      simp [get_actual_shape, h1, h2]
    · have h0 : ¬ shape.count Dim.star = 0 := by omega
      have h1 : ¬ shape.count Dim.star = 1 := by omega
      refine ⟨"Invalid shape", ?_⟩
      simp [get_actual_shape, h0, h1]

/-- Concrete instance of C3: `["*", 3]` with int16 elements over 12 bytes
resolves to `[2, 3]`. -/
theorem C3_get_actual_shape_spec_witness :
    get_actual_shape [Dim.star, Dim.size 3] none
      (some (.dt (.scalar .native .int16))) 12
      = .ok [Dim.size 2, Dim.size 3] := by
  have h := C3_get_actual_shape_spec.2.1 [Dim.size 3] none (.scalar .native .int16)
    12 6 (by decide) (by decide) (by decide)
  simpa using h

/-! ## Lazy-view lemmas -/

theorem make_array_build_ok (env : Env) (v v1 : NDArr) (a1 : ArrObj)
    (h : make_array_build env v = (v1, .ok a1)) :
    v1 = { v with array := some a1 }
    ∧ (a1.mmapBacked && env.closed a1.dataId) = false := by
  unfold make_array_build at h
  split at h
  · simp at h
  · split at h
    · simp at h
    · rename_i data hdata hguard
      split at h
      · simp at h
      · split at h
        · simp at h
        · split at h
          · simp at h
          · rename_i sh hsh rsh hrsh ns hns
            simp only [Prod.mk.injEq, Except.ok.injEq] at h
            obtain ⟨hv, ha⟩ := h
            subst ha
            exact ⟨hv.symm, by simpa using hguard⟩

theorem make_array_of_none (env : Env) (v : NDArr) (hva : v.array = none) :
    make_array env v = make_array_build env v := by
  simp [make_array, hva]

theorem make_array_cached (env : Env) (v : NDArr) (a : ArrObj)
    (hva : v.array = some a) (hg : (a.mmapBacked && env.closed a.dataId) = false) :
    make_array env v = (v, .ok a) := by
  simp [make_array, hva, hg]

theorem make_array_invalidated (env : Env) (v : NDArr) (a : ArrObj)
    (hva : v.array = some a) (hg : (a.mmapBacked && env.closed a.dataId) = true) :
    make_array env v = make_array_build env { v with array := none } := by
  simp [make_array, hva, hg]

theorem make_array_ok_inv (env : Env) (v v1 : NDArr) (a1 : ArrObj)
    (h : make_array env v = (v1, .ok a1)) :
    v1.array = some a1 ∧ (a1.mmapBacked && env.closed a1.dataId) = false := by
  cases hva : v.array with
  | none =>
      rw [make_array_of_none env v hva] at h
      have hb := make_array_build_ok env v v1 a1 h
      exact ⟨by rw [hb.1], hb.2⟩
  | some a =>
      by_cases hg : (a.mmapBacked && env.closed a.dataId) = true
      · rw [make_array_invalidated env v a hva hg] at h
        have hb := make_array_build_ok env { v with array := none } v1 a1 h
        exact ⟨by rw [hb.1], hb.2⟩
      · have hg2 : (a.mmapBacked && env.closed a.dataId) = false := by
          simpa using hg
        rw [make_array_cached env v a hva hg2] at h
        simp only [Prod.mk.injEq, Except.ok.injEq] at h
        obtain ⟨hv, ha⟩ := h
        subst hv
        subst ha
        exact ⟨hva, hg2⟩

/-- C5: once `_make_array` has produced and cached an array, calling it
again in an environment where the backing map is not closed returns the
identical cached array object and leaves the state unchanged; if the
backing map has been closed in between, the second call instead rebuilds
a fresh array from the bytes the source currently serves (a different
array whenever those bytes are a different object). -/
theorem C5_materialize_cache :
    (∀ env v v1 a1, make_array env v = (v1, .ok a1) →
        make_array env v1 = (v1, .ok a1))
    ∧ (∀ (env2 : Env) v1 a1 b d sh rsh ns,
        env2.cachedData b = d →
        v1.array = some a1 → a1.mmapBacked = true →
        env2.closed a1.dataId = true → v1.source = .callback b →
        (d.mmapBacked && env2.closed d.id) = false →
        v1.shape = some sh →
        get_actual_shape sh v1.strides v1.dtype d.size = .ok rsh →
        dimNats rsh = some ns →
        make_array env2 v1
          = ({ v1 with array := some (ArrObj.mk d.id d.mmapBacked ns) },
             .ok (ArrObj.mk d.id d.mmapBacked ns))
          ∧ (d.id ≠ a1.dataId → ArrObj.mk d.id d.mmapBacked ns ≠ a1)) := by
  constructor
  · intro env v v1 a1 h
    have hinv := make_array_ok_inv env v v1 a1 h
    exact make_array_cached env v1 a1 hinv.1 hinv.2
  · intro env2 v1 a1 b d sh rsh ns hd hva hmm hcl hsrc hfresh hsh hgas hns
    have hguard : (a1.mmapBacked && env2.closed a1.dataId) = true := by
      rw [hmm, hcl]; rfl
    rw [make_array_invalidated env2 v1 a1 hva hguard]
    constructor
    · unfold make_array_build
      simp only [hsrc, fetchData, hd, hfresh, Bool.false_eq_true, if_false,
        hsh, hgas, hns]
    · intro hne heq
      have hid : (ArrObj.mk d.id d.mmapBacked ns).dataId = a1.dataId := by rw [heq]
      exact hne hid

/-- Concrete instance of C5: a cached mmap-backed array is returned
unchanged while the map is open (`envA`), and rebuilt over the freshly
served bytes object 9 after bytes object 5 is closed (`envB`). -/
theorem C5_materialize_cache_witness :
    make_array envA { viewA with array := some ⟨5, true, [2, 3]⟩ }
      = ({ viewA with array := some ⟨5, true, [2, 3]⟩ }, .ok ⟨5, true, [2, 3]⟩)
    ∧ make_array envB { viewA with array := some ⟨5, true, [2, 3]⟩ }
      = ({ viewA with array := some ⟨9, true, [2, 3]⟩ }, .ok ⟨9, true, [2, 3]⟩)
    ∧ (⟨9, true, [2, 3]⟩ : ArrObj) ≠ ⟨5, true, [2, 3]⟩ := by
  refine ⟨?_, ?_, ?_⟩
  · exact C5_materialize_cache.1 envA viewA _ _ (by decide)
  · exact (C5_materialize_cache.2 envB { viewA with array := some ⟨5, true, [2, 3]⟩ }
      ⟨5, true, [2, 3]⟩ 0 ⟨9, 12, true⟩ [Dim.size 2, Dim.size 3]
      [Dim.size 2, Dim.size 3] [2, 3]
      rfl rfl rfl (by decide) rfl (by decide) rfl (by decide) (by decide)).1
  · exact (C5_materialize_cache.2 envB { viewA with array := some ⟨5, true, [2, 3]⟩ }
      ⟨5, true, [2, 3]⟩ 0 ⟨9, 12, true⟩ [Dim.size 2, Dim.size 3]
      [Dim.size 2, Dim.size 3] [2, 3]
      rfl rfl rfl (by decide) rfl (by decide) rfl (by decide) (by decide)).2 (by decide)

/-- C7: an element assignment on a view first materializes; if the
underlying assignment raises, the cached array is cleared and the same
exception is re-raised; if it succeeds, the cache (the just-materialized
array) is kept. -/
theorem C7_setitem_cache (env : Env) (v v1 : NDArr) (a : ArrObj) (e : String)
    (h : make_array env v = (v1, .ok a)) :
    setitem env v (some e) = ({ v1 with array := none }, some e)
    ∧ setitem env v none = (v1, none)
    ∧ v1.array = some a := by
  refine ⟨?_, ?_, (make_array_ok_inv env v v1 a h).1⟩
  · simp [setitem, h]
  · simp [setitem, h]

/-- Concrete instance of C7 on `viewA` in `envA`: a failing assignment
clears the cache and re-raises; a successful one keeps the cache. -/
theorem C7_setitem_cache_witness :
    setitem envA viewA (some "ValueError")
      = ({ viewA with array := none }, some "ValueError")
    ∧ setitem envA viewA none
      = ({ viewA with array := some ⟨5, true, [2, 3]⟩ }, none) := by
  have h := C7_setitem_cache envA viewA
    { viewA with array := some ⟨5, true, [2, 3]⟩ } ⟨5, true, [2, 3]⟩ "ValueError"
    (by decide)
  exact ⟨h.1, h.2.1⟩

/-- C9: for an unmaterialized view whose shape spec has no wildcard, the
`shape` accessor returns the spec directly: the environment `env` is
universally quantified and absent from the result, so the storage source
is never consulted, and the returned state is the unchanged view (the
cached-array field stays absent). -/
theorem C9_shape_metadata_only (env : Env) (v : NDArr) (sh : List Dim)
    (h1 : v.array = none) (h2 : v.shape = some sh)
    (h3 : sh.contains Dim.star = false) :
    shape_prop env v
      = (v, .ok (sh.map (fun d => match d with | .star => 0 | .size n => n))) := by
  have h3m : ¬ Dim.star ∈ sh := by simpa using h3
  simp [shape_prop, h1, h2, h3m]

/-- Concrete instance of C9: `viewA` (shape spec [2, 3], empty cache)
reports shape [2, 3] with its state unchanged. -/
theorem C9_shape_metadata_only_witness :
    shape_prop envA viewA = (viewA, .ok [2, 3]) := by
  have h := C9_shape_metadata_only envA viewA [Dim.size 2, Dim.size 3]
    rfl rfl (by decide)
  simpa using h

/-! ## Serializer -/

/-- C8: whenever the resolved storage options make the storage kind
"streamed" (here forced through the configuration, or any other way) and
serialization succeeds, the emitted payload has a wildcard-leading shape
and the reserved source sentinel -1, regardless of the array being
serialized. -/
theorem C8_streamed_payload (sysBo : Bo) (a0 : NpArrM) (lookupRes : Option WOptions)
    (getOpts : WOptions) (cfg : Cfg) (wh : Int) (p : Payload)
    (hst : (effectiveOptions a0 lookupRes getOpts cfg).storageType = .streamed)
    (hok : to_tree sysBo a0 lookupRes getOpts cfg wh = .ok p) :
    p.shape.head? = some Dim.star ∧ p.source = some (-1) := by
  cases hsh : (normalizeData a0).shape with
  | nil => simp [to_tree, hst, hsh] at hok
  | cons s rest =>
      simp only [to_tree, hst, hsh] at hok
      simp only [reduceCtorEq, reduceIte, Except.ok.injEq] at hok
      subst hok
      exact ⟨rfl, rfl⟩

/-- Concrete instance of C8: an int64 array of shape (5, 2) with storage
forced to "streamed". -/
theorem C8_streamed_payload_witness :
    to_tree .little arrA none ⟨.internal, none⟩ cfgStreamed 7
      = .ok ⟨[Dim.star, Dim.size 2], none, .s "int64", some "little",
             some (-1), none, none, none⟩
    ∧ ((⟨[Dim.star, Dim.size 2], none, .s "int64", some "little",
          some (-1), none, none, none⟩ : Payload).shape.head? = some Dim.star
       ∧ (⟨[Dim.star, Dim.size 2], none, .s "int64", some "little",
          some (-1), none, none, none⟩ : Payload).source = some (-1)) := by
  constructor
  · decide
  · exact C8_streamed_payload .little arrA none ⟨.internal, none⟩ cfgStreamed 7 _
      (by decide) (by decide)

/-! ## Validators -/

/-- C4 counterexample: the claim says none of the three validators ever
raises, including on a value that is not array-like — but on such a value
the maximum-dimension-count validator raises a TypeError (`None > int`)
and the datatype validator raises a ValidationError. -/
theorem C4_counterexample :
    validate_max_ndim 2 .other
      = ([], some "TypeError: NoneType is not orderable with int")
    ∧ validate_datatype .little (.s "int32") false .other
      = ([], some "Not an array") :=
  ⟨rfl, rfl⟩

/-- C4 amended: when the candidate value is not array-like, the
dimension-count validator yields one diagnostic without raising, while
the maximum-dimension-count validator raises a TypeError (None compared
with an int) and the datatype validator raises a ValidationError; on
concrete arrays the two dimension validators only yield diagnostics, but
the datatype validator can raise even on an array-like candidate: a
structured schema datatype against a scalar actual dtype raises a
TypeError (taking len of the scalar dtype's absent fields,
ndarray.py:764). -/
theorem C4_amended_validators (sysBo : Bo) (n m : Nat) (dt : DNode) (exact : Bool)
    (sh : List Nat) (t : NpDtype) :
    validate_ndim n .other = (["Wrong number of dimensions"], none)
    ∧ validate_max_ndim m .other
        = ([], some "TypeError: NoneType is not orderable with int")
    ∧ validate_datatype sysBo dt exact .other = ([], some "Not an array")
    ∧ (validate_ndim n (.arrI sh t)).2 = none
    ∧ (validate_max_ndim m (.arrI sh t)).2 = none
    ∧ (validate_datatype sysBo (.l (dlistOf [.fld (some "a") none none (.s "int32")]))
        exact (.arrI sh (.scalar .native .int32))).2
        = some "TypeError: len of None" := by
  refine ⟨?_, rfl, rfl, ?_, rfl, ?_⟩
  · simp [validate_ndim, get_ndim]
  · simp only [validate_ndim, get_ndim]
    split <;> rfl
  · cases sysBo <;> cases exact <;> rfl

/-! ## Mask application -/

theorem maskAt_shrink (xs : List Elem) (m : List Bool) (i : Nat) :
    maskAt (xs, if m.contains true then some m else none) i
      = (m[i]?).getD false := by
  by_cases h : m.contains true = true
  · rw [if_pos h]
    rfl
  · rw [if_neg h]
    cases hg : m[i]? with
    | none => rfl
    | some b =>
        cases b
        · rfl
        · have hb : true ∈ m := List.getElem?_mem hg
          have hc : m.contains true = true := List.elem_iff.mpr hb
          exact absurd hc h

/-- C6 counterexample: on a floating-point array, a non-NaN scalar mask
marks an element that is not exactly equal to the scalar
(`ma.masked_values` uses approximate `isclose` equality for floats):
value 1 + 1e-9 is marked by the scalar mask 1 though it differs from 1. -/
theorem C6_counterexample :
    (apply_mask true [.q (1 + 1 / 1000000000)] (some (.scalar 1))).2 = some [true]
    ∧ (1 : ℚ) + 1 / 1000000000 ≠ 1 := by
  constructor
  · simp [apply_mask, masked_values, iscloseB]
    norm_num [abs_le]
  · norm_num

/-- C6 amended: an absent mask returns the array unmasked with no mask
allocated; a scalar NaN mask marks exactly the NaN elements; any other
scalar marks elements by exact equality on non-floating-point arrays but
by numpy closeness (|x - v| <= 1e-8 + 1e-5 |v|) on floating-point
arrays; an explicit mask array is attached as given; the data itself is
never changed. -/
theorem C6_amended_apply_mask (isFloat : Bool) (xs : List Elem) (v : ℚ)
    (m : List Bool) (i : Nat) :
    apply_mask isFloat xs none = (xs, none)
    ∧ apply_mask isFloat xs (some (.arr m)) = (xs, some m)
    ∧ maskAt (apply_mask isFloat xs (some .scalarNan)) i
        = ((xs[i]?).map Elem.isNan).getD false
    ∧ maskAt (apply_mask false xs (some (.scalar v))) i
        = ((xs[i]?).map (exactEqB · v)).getD false
    ∧ maskAt (apply_mask true xs (some (.scalar v))) i
        = ((xs[i]?).map (iscloseB · v)).getD false
    ∧ (apply_mask isFloat xs (some (.scalar v))).1 = xs := by
  refine ⟨rfl, rfl, ?_, ?_, ?_, ?_⟩
  · simp [apply_mask, maskAt, List.getElem?_map]
  · have h := maskAt_shrink xs (xs.map (exactEqB · v)) i
    simpa [apply_mask, masked_values, List.getElem?_map] using h
  · have h := maskAt_shrink xs (xs.map (iscloseB · v)) i
    simpa [apply_mask, masked_values, List.getElem?_map] using h
  · simp [apply_mask, masked_values]

/-! ## from_tree -/

end Asdf
